import Mathlib

/-!
Verification of the `datadot` data-navigation library (`src/dd/dd.py`).

The development shallowly embeds the Python source: JSON-like subject
values become the inductive type `Value`, the four operation classes
(`_DDAttributeOperation`, `_DDItemOperation`, `_DDExpandOperation`,
`_DDMapOperation`) become the inductive `Operation` together with the
evaluator `applyOp`, the navigator class `dd` becomes the structure
`DDNav` with its builder methods `ddGetattr`/`ddGetitem`, and
`dd.__call__` becomes `ddCall`.  Python exceptions raised by subscript
lookups are modelled by `PyErr`; the library's `DDException` becomes the
structure `DDExc`.
-/

namespace DataDot

/-- Keys usable in `navigator[key]` item access: strings and integers. -/
inductive Key where
  | str (s : String)
  | int (n : Int)
deriving DecidableEq, Repr

/-- JSON-like Python values navigated by the library: `None`, booleans,
integers, text strings, byte strings, lists and (insertion-ordered,
string-keyed) dicts. -/
inductive Value where
  | null
  | bool (b : Bool)
  | int (n : Int)
  | str (s : String)
  | bytes (bs : List Nat)
  | list (xs : List Value)
  | dict (kvs : List (String × Value))
deriving Repr

/-- Python exceptions raised by a subscript lookup `value[key]`, with the
text that `str(e)` renders for them. -/
inductive PyErr where
  | keyError (msg : String)
  | indexError (msg : String)
  | typeError (msg : String)
deriving DecidableEq, Repr

/-- `DDException(message, path, value)` from `src/dd/dd.py`. -/
structure DDExc where
  message : String
  path : List String
  value : Value
deriving Repr

/-- Python `repr` of a key (used for item path segments and `KeyError` text). -/
def reprKey : Key → String
  | .str s => "'" ++ s ++ "'"
  | .int n => toString n

/-- Python `str` of a key (used in f-string error messages). -/
def strKey : Key → String
  | .str s => s
  | .int n => toString n

/-- First-match association lookup in a dict's key/value list. -/
def lookupAssoc : List (String × Value) → String → Option Value
  | [], _ => none
  | (k, v) :: rest, s => if k = s then some v else lookupAssoc rest s

/-- Python list indexing with negative-index wraparound. -/
def listGet (xs : List Value) (n : Int) : Except PyErr Value :=
  let len : Int := xs.length
  let idx : Int := if n < 0 then n + len else n
  if 0 ≤ idx ∧ idx < len then .ok (xs.getD idx.toNat .null)
  else .error (.indexError "list index out of range")

/-- Python string indexing (`s[i]` yields a one-character string). -/
def strGet (s : String) (n : Int) : Except PyErr Value :=
  let len : Int := s.length
  let idx : Int := if n < 0 then n + len else n
  if 0 ≤ idx ∧ idx < len then .ok (.str (String.mk [s.toList.getD idx.toNat ' ']))
  else .error (.indexError "string index out of range")

/-- Python byte-string indexing (`b[i]` yields an integer). -/
def bytesGet (bs : List Nat) (n : Int) : Except PyErr Value :=
  let len : Int := bs.length
  let idx : Int := if n < 0 then n + len else n
  if 0 ≤ idx ∧ idx < len then .ok (.int (bs.getD idx.toNat 0))
  else .error (.indexError "index out of range")

/-- The Python subscript lookup `value[key]` as performed by the attribute
and item operations, with the exception it raises on failure. -/
def pyGetItem : Value → Key → Except PyErr Value
  | .null, _ => .error (.typeError "'NoneType' object is not subscriptable")
  | .bool _, _ => .error (.typeError "'bool' object is not subscriptable")
  | .int _, _ => .error (.typeError "'int' object is not subscriptable")
  | .str s, .int n => strGet s n
  | .str _, .str _ => .error (.typeError "string indices must be integers")
  | .bytes bs, .int n => bytesGet bs n
  | .bytes _, .str _ => .error (.typeError "byte indices must be integers or slices, not str")
  | .list xs, .int n => listGet xs n
  | .list _, .str _ => .error (.typeError "list indices must be integers or slices, not str")
  | .dict kvs, .str s =>
    match lookupAssoc kvs s with
    | some v => .ok v
    | none => .error (.keyError ("'" ++ s ++ "'"))
  | .dict _, .int n => .error (.keyError (toString n))

/-- The recorded operations of a navigation chain: the four `_DDOperation`
subclasses of `src/dd/dd.py`.  Attribute and item operations capture the
`null_safe` flag they were constructed with. -/
inductive Operation where
  | attr (name : String) (nullSafe : Bool)
  | item (key : Key) (nullSafe : Bool)
  | expand
  | map (inner : Operation) (level : Nat)
deriving Repr, DecidableEq

/-- `_DDAttributeOperation.apply`: appends the attribute to the path; a
`None` value under null-safety yields `None`; `KeyError`/`IndexError` are
suppressed to `None` under null-safety; every other lookup failure raises
`DDException`. -/
def attrApply (a : String) (ns : Bool) (v : Value) (path : List String) :
    List String × Except DDExc Value :=
  let p := path ++ [a]
  match v, ns with
  | .null, true => (p, .ok .null)
  | _, _ =>
    match pyGetItem v (.str a) with
    | .ok r => (p, .ok r)
    | .error (.keyError m) =>
      if ns then (p, .ok .null)
      else (p, .error ⟨"Failed to get attribute '" ++ a ++ "': " ++ m, p, v⟩)
    | .error (.indexError m) =>
      if ns then (p, .ok .null)
      else (p, .error ⟨"Failed to get attribute '" ++ a ++ "': " ++ m, p, v⟩)
    | .error (.typeError m) =>
      (p, .error ⟨"Failed to get attribute '" ++ a ++ "': " ++ m, p, v⟩)

/-- `_DDItemOperation.apply`: same contract as the attribute operation,
with a `[repr(key)]` path segment; its `KeyError`/`IndexError` messages
also say "attribute" (as the source does), the generic branch says
"item with key". -/
def itemApply (k : Key) (ns : Bool) (v : Value) (path : List String) :
    List String × Except DDExc Value :=
  let p := path ++ ["[" ++ reprKey k ++ "]"]
  match v, ns with
  | .null, true => (p, .ok .null)
  | _, _ =>
    match pyGetItem v k with
    | .ok r => (p, .ok r)
    | .error (.keyError m) =>
      if ns then (p, .ok .null)
      else (p, .error ⟨"Failed to get attribute '" ++ strKey k ++ "': " ++ m, p, v⟩)
    | .error (.indexError m) =>
      if ns then (p, .ok .null)
      else (p, .error ⟨"Failed to get attribute '" ++ strKey k ++ "': " ++ m, p, v⟩)
    | .error (.typeError m) =>
      (p, .error ⟨"Failed to get item with key '" ++ strKey k ++ "': " ++ m, p, v⟩)

/-- `_DDExpandOperation.apply`: `None` expands to `[]`, a dict to its
values in insertion order, a list to itself; text strings, byte strings
and scalars are not expandable. -/
def expandApply (v : Value) (path : List String) :
    List String × Except DDExc Value :=
  let p := path ++ ["[...]"]
  match v with
  | .null => (p, .ok (.list []))
  | .dict kvs => (p, .ok (.list (kvs.map Prod.snd)))
  | .list xs => (p, .ok (.list xs))
  | _ => (p, .error ⟨"Cannot expand non-iterable", p, v⟩)

/-- Collects per-element results the way the Python `for` loop does:
the first raised exception aborts the whole loop. -/
def collect : List (Except DDExc Value) → Except DDExc (List Value)
  | [] => .ok []
  | .error e :: _ => .error e
  | .ok v :: rest => (collect rest).map (v :: ·)

mutual

/-- The evaluator for recorded operations (`_DDOperation.apply` of
`src/dd/dd.py`).  The map case mirrors `_DDMapOperation.apply`: `None`
broadcasts to `[]`, a non-list value is treated as a one-element list,
and over a list the inner operation is applied per element with the path
extended by the index.  Per-element exceptions propagate (this version
of the source has no per-element catch). -/
def applyOp (op : Operation) (v : Value) (path : List String) :
    List String × Except DDExc Value :=
  match op with
  | .attr a ns => attrApply a ns v path
  | .item k ns => itemApply k ns v path
  | .expand => expandApply v path
  | .map inner level =>
    match v with
    | .null => (path, .ok (.list []))
    | .list xs =>
      let results := (List.enumFrom 0 xs).map (fun pr =>
        applyMapElem inner level pr.2 (path ++ ["[" ++ toString pr.1 ++ "]"]))
      (path, (collect results).map Value.list)
    | w =>
      let r := applyOp inner w path
      (r.1, r.2.map (fun x => Value.list [x]))
termination_by 2 * sizeOf op

/-- Body of the per-element loop of `_DDMapOperation.apply`: when the
inner operation is itself a map, the element is a list and the expansion
level exceeds 1, recurse with a fresh map one level shallower per inner
element; otherwise apply the inner operation to the element. -/
def applyMapElem (inner : Operation) (level : Nat) (item : Value)
    (ipath : List String) : Except DDExc Value :=
  match level, inner with
  | l + 2, .map inner2 l2 =>
    match item with
    | .list ys =>
      let innerResults := (List.enumFrom 0 ys).map (fun qr =>
        (applyOp (.map inner2 (l + 1)) qr.2 (ipath ++ ["[" ++ toString qr.1 ++ "]"])).2)
      (collect innerResults).map Value.list
    | _ => (applyOp (.map inner2 l2) item ipath).2
  | _ + 2, .attr a ns => (attrApply a ns item ipath).2
  | _ + 2, .item k ns => (itemApply k ns item ipath).2
  | _ + 2, .expand => (expandApply item ipath).2
  | 0, innr => (applyOp innr item ipath).2
  | 1, innr => (applyOp innr item ipath).2
termination_by 2 * (sizeOf inner + level) + 1

end

/-- The navigator (`class dd`): the captured subject value, the recorded
operation chain, the null-safe flag and the stack of open expansion
levels. -/
structure DDNav where
  value : Value
  operations : List Operation
  nullSafe : Bool
  expansionLevels : List Nat
deriving Repr

/-- The wrapping loop of `dd.__getattr__` / `dd.__getitem__`: wrap a new
operation in one `_DDMapOperation` per recorded expansion level,
iterating over the levels in reverse. -/
def wrapLevels (levels : List Nat) (base : Operation) : Operation :=
  levels.reverse.foldl (fun acc l => .map acc l) base

/-- `dd.__getattr__`: the reserved `_` marker returns the same navigator
with null-safety enabled; any other name appends an attribute operation
(wrapped once per open expansion level). -/
def ddGetattr (nav : DDNav) (a : String) : DDNav :=
  if a = "_" then ⟨nav.value, nav.operations, true, nav.expansionLevels⟩
  else
    ⟨nav.value, nav.operations ++ [wrapLevels nav.expansionLevels (.attr a nav.nullSafe)],
     nav.nullSafe, nav.expansionLevels⟩

/-- Argument of `dd.__getitem__`: either the `...` (Ellipsis) expansion
marker or an ordinary key. -/
inductive ItemArg where
  | ellipsis
  | key (k : Key)
deriving DecidableEq, Repr

/-- `dd.__getitem__`: `...` appends an expand operation and pushes a new
expansion level `1`; any other key appends an item operation (wrapped
once per open expansion level). -/
def ddGetitem (nav : DDNav) (arg : ItemArg) : DDNav :=
  match arg with
  | .ellipsis =>
    ⟨nav.value, nav.operations ++ [.expand], nav.nullSafe, nav.expansionLevels ++ [1]⟩
  | .key k =>
    ⟨nav.value, nav.operations ++ [wrapLevels nav.expansionLevels (.item k nav.nullSafe)],
     nav.nullSafe, nav.expansionLevels⟩

/-- The operation-folding loop of `dd.__call__`: before each operation,
a `None` result under the navigator's (final) null-safe flag
short-circuits the rest of the chain to `None`; otherwise the operation
is applied and any exception propagates. -/
def runOps (ns : Bool) : List Operation → Value → List String →
    List String × Except DDExc Value
  | [], v, path => (path, .ok v)
  | op :: rest, v, path =>
    match ns, v with
    | true, .null => (path, .ok .null)
    | _, _ =>
      match applyOp op v path with
      | (p, .ok r) => runOps ns rest r p
      | (p, .error e) => (p, .error e)

/-- `dd.__call__`: runs the chain from the subject value with the root
path segment `dd`, then applies the optional converter; a converter
failure is wrapped into a `DDException` labelled a conversion error. -/
def ddCall (nav : DDNav) (convert : Option (Value → Except String Value)) :
    Except DDExc Value :=
  match runOps nav.nullSafe nav.operations nav.value ["dd"] with
  | (_, .error e) => .error e
  | (p, .ok result) =>
    match convert with
    | none => .ok result
    | some f =>
      match f result with
      | .ok r => .ok r
      | .error m => .error ⟨"Conversion error: " ++ m, p, result⟩

/-- One chain-building call on a navigator through the public interface:
attribute access (including the `_` null-safe marker), item access, or
the `[...]` expansion marker. -/
inductive Step where
  | attr (name : String)
  | item (k : Key)
  | expand
deriving DecidableEq, Repr

/-- Performs one building step on a navigator. -/
def applyStep (nav : DDNav) : Step → DDNav
  | .attr a => ddGetattr nav a
  | .item k => ddGetitem nav (.key k)
  | .expand => ddGetitem nav .ellipsis

/-- Builds a navigator through the public interface: start from
`dd(value)` and perform the given chain-building calls in order. -/
def buildNav (v : Value) (steps : List Step) : DDNav :=
  steps.foldl applyStep ⟨v, [], false, []⟩

/-- The single operation a chain-building step records when no expansion
level is open, given the navigator's null-safe flag at append time. -/
def stepOp (ns : Bool) : Step → Operation
  | .attr a => .attr a ns
  | .item k => .item k ns
  | .expand => .expand

/-- A step that records a plain (unwrapped) lookup operation: an
attribute access other than the reserved `_` marker, or an item access
with an ordinary key. -/
def isLookup : Step → Bool
  | .attr a => a != "_"
  | .item _ => true
  | .expand => false

/-- A step that is not the reserved `_` null-safe marker. -/
def notMark : Step → Bool
  | .attr a => a != "_"
  | .item _ => true
  | .expand => true

/-- The value a null-safe attribute lookup produces for one element:
`None` stays `None`, a successful subscript gives its result, and a
failing subscript is suppressed to `None` (total only on elements whose
failures are of the suppressible kinds). -/
def safeAttrLookup (a : String) (x : Value) : Value :=
  match x with
  | .null => .null
  | _ =>
    match pyGetItem x (.str a) with
    | .ok w => w
    | .error _ => .null

/-- Whether a null-safe attribute lookup on this element cannot raise:
the element is `None`, or its subscript lookup succeeds or fails with a
`KeyError`/`IndexError` (the kinds null-safety suppresses). -/
def safeAttrOk (a : String) (x : Value) : Bool :=
  match x with
  | .null => true
  | _ =>
    match pyGetItem x (.str a) with
    | .ok _ => true
    | .error (.keyError _) => true
    | .error (.indexError _) => true
    | .error (.typeError _) => false

/-- The value a plain (non-null-safe) item lookup produces for one
element when it succeeds (`.null` as an unused placeholder otherwise). -/
def plainItemLookup (k : Key) (x : Value) : Value :=
  match pyGetItem x k with
  | .ok w => w
  | .error _ => .null

/-- Whether every map operation occurring in an operation (at any
nesting depth) carries expansion level `1`. -/
def levelsOne : Operation → Bool
  | .attr _ _ => true
  | .item _ _ => true
  | .expand => true
  | .map inner level => level == 1 && levelsOne inner

/-- The key a plain lookup step subscripts with (`.str ""` is a dummy
for the expand step, which performs no subscript). -/
def stepKey : Step → Key
  | .attr a => .str a
  | .item k => k
  | .expand => .str ""

mutual

/-- A variant of `applyOp` with the `expansion_level > 1`
recursive-broadcast branch of `_DDMapOperation.apply` deleted: over a
list, the inner operation is always applied per element directly. -/
def applyOp1 (op : Operation) (v : Value) (path : List String) :
    List String × Except DDExc Value :=
  match op with
  | .attr a ns => attrApply a ns v path
  | .item k ns => itemApply k ns v path
  | .expand => expandApply v path
  | .map inner _ =>
    match v with
    | .null => (path, .ok (.list []))
    | .list xs =>
      let results := (List.enumFrom 0 xs).map (fun pr =>
        applyMapElem1 inner pr.2 (path ++ ["[" ++ toString pr.1 ++ "]"]))
      (path, (collect results).map Value.list)
    | w =>
      let r := applyOp1 inner w path
      (r.1, r.2.map (fun x => Value.list [x]))
termination_by 2 * sizeOf op

/-- Per-element body of `applyOp1`: always the direct application. -/
def applyMapElem1 (inner : Operation) (item : Value) (ipath : List String) :
    Except DDExc Value :=
  (applyOp1 inner item ipath).2
termination_by 2 * sizeOf inner + 1

end

/-- `[{"name": "A"}, None]`: the broadcast-resilience example data. -/
def resilienceData : Value := .list [.dict [("name", .str "A")], .null]

/-- `{"users": [{"name": "Alice"}]}`: the error-path-reporting example
data (a one-element `users` list). -/
def usersData : Value := .dict [("users", .list [.dict [("name", .str "Alice")]])]

/-- A department/team/member nested structure with two departments, two
teams each, and 2/2/2/1 members, as in the nested-expansion scenario. -/
def deptData : Value := .dict [("departments", .list [
  .dict [("name", .str "Engineering"), ("teams", .list [
    .dict [("name", .str "Frontend"),
           ("members", .list [.dict [("name", .str "Alice")], .dict [("name", .str "Bob")]])],
    .dict [("name", .str "Backend"),
           ("members", .list [.dict [("name", .str "Charlie")], .dict [("name", .str "Dave")]])]])],
  .dict [("name", .str "Marketing"), ("teams", .list [
    .dict [("name", .str "Digital"),
           ("members", .list [.dict [("name", .str "Eve")], .dict [("name", .str "Frank")]])],
    .dict [("name", .str "Brand"),
           ("members", .list [.dict [("name", .str "Grace")]])]])]])]

/-- `departments[...].teams[...].members[...].name`. -/
def deptSteps : List Step :=
  [.attr "departments", .expand, .attr "teams", .expand, .attr "members", .expand, .attr "name"]

/-- The triply nested name lists matching the department/team/member
counts of `deptData`. -/
def deptExpected : Value := .list [
  .list [.list [.str "Alice", .str "Bob"], .list [.str "Charlie", .str "Dave"]],
  .list [.list [.str "Eve", .str "Frank"], .list [.str "Grace"]]]

/-- Whether a Python lookup exception is a "not found" case
(`KeyError` or `IndexError`), the kinds null-safety suppresses. -/
def isNotFound : PyErr → Bool
  | .keyError _ => true
  | .indexError _ => true
  | .typeError _ => false

/-- `{"users": None}`: data whose `users` attribute is `None`. -/
def nullUsers : Value := .dict [("users", .null)]

/-- `[[1,2,3],[4,5,6]]` as rows of a matrix. -/
def matrixRows : List Value :=
  [.list [.int 1, .int 2, .int 3], .list [.int 4, .int 5, .int 6]]

/-- A computable size measure on operations, bounding the recursion
depth of the map evaluator. -/
def opSize : Operation → Nat
  | .attr _ _ => 1
  | .item _ _ => 1
  | .expand => 1
  | .map inner level => 1 + opSize inner + level

/-- Per-element body of the map loop, abstracted over the recursive
evaluator (used to give a fuel-indexed, kernel-computable mirror of
`applyOp`). -/
def applyMapElemWith
    (recur : Operation → Value → List String → List String × Except DDExc Value)
    (inner : Operation) (level : Nat) (item : Value) (ipath : List String) :
    Except DDExc Value :=
  match level, inner with
  | l + 2, .map inner2 l2 =>
    match item with
    | .list ys =>
      let innerResults := (List.enumFrom 0 ys).map (fun qr =>
        (recur (.map inner2 (l + 1)) qr.2 (ipath ++ ["[" ++ toString qr.1 ++ "]"])).2)
      (collect innerResults).map Value.list
    | _ => (recur (.map inner2 l2) item ipath).2
  | _ + 2, .attr a ns => (attrApply a ns item ipath).2
  | _ + 2, .item k ns => (itemApply k ns item ipath).2
  | _ + 2, .expand => (expandApply item ipath).2
  | 0, innr => (recur innr item ipath).2
  | 1, innr => (recur innr item ipath).2

/-- Fuel-indexed mirror of `applyOp`, structurally recursive on the fuel
so that concrete navigations can be evaluated by the kernel; it agrees
with `applyOp` whenever the fuel exceeds twice the operation's size. -/
def applyOpFuel : Nat → Operation → Value → List String →
    List String × Except DDExc Value
  | 0, _, _, path => (path, .error ⟨"out of fuel", path, .null⟩)
  | fuel + 1, op, v, path =>
    match op with
    | .attr a ns => attrApply a ns v path
    | .item k ns => itemApply k ns v path
    | .expand => expandApply v path
    | .map inner level =>
      match v with
      | .null => (path, .ok (.list []))
      | .list xs =>
        let results := (List.enumFrom 0 xs).map (fun pr =>
          applyMapElemWith (applyOpFuel fuel) inner level pr.2
            (path ++ ["[" ++ toString pr.1 ++ "]"]))
        (path, (collect results).map Value.list)
      | w =>
        let r := applyOpFuel fuel inner w path
        (r.1, r.2.map (fun x => Value.list [x]))

/-- `runOps` with the fuelled evaluator (kernel-computable). -/
def runOpsFuel (ns : Bool) : List Operation → Value → List String →
    List String × Except DDExc Value
  | [], v, path => (path, .ok v)
  | op :: rest, v, path =>
    match ns, v with
    | true, .null => (path, .ok .null)
    | _, _ =>
      match applyOpFuel (2 * opSize op + 1) op v path with
      | (p, .ok r) => runOpsFuel ns rest r p
      | (p, .error e) => (p, .error e)

/-- `ddCall` with the fuelled evaluator (kernel-computable). -/
def ddCallFuel (nav : DDNav) (convert : Option (Value → Except String Value)) :
    Except DDExc Value :=
  match runOpsFuel nav.nullSafe nav.operations nav.value ["dd"] with
  | (_, .error e) => .error e
  | (p, .ok result) =>
    match convert with
    | none => .ok result
    | some f =>
      match f result with
      | .ok r => .ok r
      | .error m => .error ⟨"Conversion error: " ++ m, p, result⟩

/-! ## Unfolding lemmas for the well-founded definitions -/

lemma applyOp_attr (a : String) (ns : Bool) (v : Value) (p : List String) :
    applyOp (.attr a ns) v p = attrApply a ns v p := by
  rw [applyOp]

lemma applyOp_item (k : Key) (ns : Bool) (v : Value) (p : List String) :
    applyOp (.item k ns) v p = itemApply k ns v p := by
  rw [applyOp]

lemma applyOp_expand (v : Value) (p : List String) :
    applyOp .expand v p = expandApply v p := by
  rw [applyOp]

lemma applyOp_map_null (inner : Operation) (level : Nat) (p : List String) :
    applyOp (.map inner level) .null p = (p, .ok (.list [])) := by
  rw [applyOp]

lemma applyOp_map_list (inner : Operation) (level : Nat) (xs : List Value) (p : List String) :
    applyOp (.map inner level) (.list xs) p =
      (p, (collect ((List.enumFrom 0 xs).map (fun pr =>
        applyMapElem inner level pr.2 (p ++ ["[" ++ toString pr.1 ++ "]"])))).map Value.list) := by
  rw [applyOp]

lemma applyOp_map_dict (inner : Operation) (level : Nat) (kvs : List (String × Value))
    (p : List String) :
    applyOp (.map inner level) (.dict kvs) p =
      ((applyOp inner (.dict kvs) p).1,
        (applyOp inner (.dict kvs) p).2.map (fun x => Value.list [x])) := by
  rw [applyOp] <;> simp

lemma applyMapElem_one (inner : Operation) (item : Value) (ip : List String) :
    applyMapElem inner 1 item ip = (applyOp inner item ip).2 := by
  rw [applyMapElem]

lemma applyOp1_attr (a : String) (ns : Bool) (v : Value) (p : List String) :
    applyOp1 (.attr a ns) v p = attrApply a ns v p := by
  rw [applyOp1]

lemma applyOp1_item (k : Key) (ns : Bool) (v : Value) (p : List String) :
    applyOp1 (.item k ns) v p = itemApply k ns v p := by
  rw [applyOp1]

lemma applyOp1_expand (v : Value) (p : List String) :
    applyOp1 .expand v p = expandApply v p := by
  rw [applyOp1]

lemma applyOp1_map_null (inner : Operation) (level : Nat) (p : List String) :
    applyOp1 (.map inner level) .null p = (p, .ok (.list [])) := by
  rw [applyOp1]

lemma applyOp1_map_list (inner : Operation) (level : Nat) (xs : List Value) (p : List String) :
    applyOp1 (.map inner level) (.list xs) p =
      (p, (collect ((List.enumFrom 0 xs).map (fun pr =>
        applyMapElem1 inner pr.2 (p ++ ["[" ++ toString pr.1 ++ "]"])))).map Value.list) := by
  rw [applyOp1]

lemma applyMapElem1_eq (inner : Operation) (item : Value) (ip : List String) :
    applyMapElem1 inner item ip = (applyOp1 inner item ip).2 := by
  rw [applyMapElem1]

/-! ## Basic facts about the execution loop -/

lemma runOps_true_null (ops : List Operation) (p : List String) :
    runOps true ops .null p = (p, .ok .null) := by
  cases ops <;> rfl

lemma runOps_cons_false (op : Operation) (rest : List Operation) (v : Value)
    (p : List String) :
    runOps false (op :: rest) v p =
      match applyOp op v p with
      | (q, .ok r) => runOps false rest r q
      | (q, .error e) => (q, .error e) := rfl

lemma runOps_cons_true_notnull (op : Operation) (rest : List Operation) (v : Value)
    (p : List String) (hv : v ≠ .null) :
    runOps true (op :: rest) v p =
      match applyOp op v p with
      | (q, .ok r) => runOps true rest r q
      | (q, .error e) => (q, .error e) := by
  cases v <;> first | exact absurd rfl hv | rfl

lemma runOps_append_ok (ns : Bool) (l1 l2 : List Operation) (v w : Value)
    (p q : List String) (h : runOps ns l1 v p = (q, .ok w)) :
    runOps ns (l1 ++ l2) v p = runOps ns l2 w q := by
  induction l1 generalizing v p with
  | nil =>
    simp only [runOps, Prod.mk.injEq, Except.ok.injEq] at h
    obtain ⟨rfl, rfl⟩ := h
    rfl
  | cons op l1' ih =>
    cases ns with
    | false =>
      rw [List.cons_append, runOps_cons_false] at *
      rcases happ : applyOp op v p with ⟨p1, r1⟩
      rw [happ] at h
      cases r1 with
      | ok r => exact ih r p1 h
      | error e => simp at h
    | true =>
      by_cases hv : v = .null
      · subst hv
        rw [runOps_true_null] at h
        obtain ⟨rfl, rfl⟩ : p = q ∧ Value.null = w := by
          simpa [Prod.ext_iff] using h
        rw [List.cons_append, runOps_true_null, runOps_true_null]
      · rw [List.cons_append, runOps_cons_true_notnull _ _ _ _ hv] at *
        rcases happ : applyOp op v p with ⟨p1, r1⟩
        rw [happ] at h
        cases r1 with
        | ok r => exact ih r p1 h
        | error e => simp at h

/-! ## Facts about the attribute/item lookup operations -/

lemma attrApply_ok_mono (a : String) (v w : Value) (p q : List String)
    (h : attrApply a false v p = (q, .ok w)) : attrApply a true v p = (q, .ok w) := by
  cases v
  case null => simp [attrApply, pyGetItem] at h
  all_goals
    simp only [attrApply] at h ⊢
    split at h <;> simp_all

lemma itemApply_ok_mono (k : Key) (v w : Value) (p q : List String)
    (h : itemApply k false v p = (q, .ok w)) : itemApply k true v p = (q, .ok w) := by
  cases v
  case null => simp [itemApply, pyGetItem] at h
  all_goals
    simp only [itemApply] at h ⊢
    split at h <;> simp_all

lemma stepOp_ok_mono (s : Step) (v w : Value) (p q : List String)
    (h : applyOp (stepOp false s) v p = (q, .ok w)) :
    applyOp (stepOp true s) v p = (q, .ok w) := by
  cases s with
  | attr a =>
    rw [stepOp, applyOp_attr] at h
    rw [stepOp, applyOp_attr]
    exact attrApply_ok_mono a v w p q h
  | item k =>
    rw [stepOp, applyOp_item] at h
    rw [stepOp, applyOp_item]
    exact itemApply_ok_mono k v w p q h
  | expand => exact h

lemma attrApply_false_err (a : String) (v : Value) (p : List String) (e : PyErr)
    (h : pyGetItem v (.str a) = .error e) :
    ∃ exc, attrApply a false v p = (p ++ [a], .error exc) := by
  cases v <;>
    · simp only [attrApply]
      split <;> first | exact ⟨_, rfl⟩ | simp_all

lemma itemApply_false_err (k : Key) (v : Value) (p : List String) (e : PyErr)
    (h : pyGetItem v k = .error e) :
    ∃ exc, itemApply k false v p = (p ++ ["[" ++ reprKey k ++ "]"], .error exc) := by
  cases v <;>
    · simp only [itemApply]
      split <;> first | exact ⟨_, rfl⟩ | simp_all

lemma stepOp_false_err (s : Step) (v : Value) (p : List String) (e : PyErr)
    (hs : isLookup s = true) (h : pyGetItem v (stepKey s) = .error e) :
    ∃ q exc, applyOp (stepOp false s) v p = (q, .error exc) := by
  cases s with
  | attr a =>
    rw [stepOp, applyOp_attr]
    obtain ⟨exc, hx⟩ := attrApply_false_err a v p e h
    exact ⟨_, exc, hx⟩
  | item k =>
    rw [stepOp, applyOp_item]
    obtain ⟨exc, hx⟩ := itemApply_false_err k v p e h
    exact ⟨_, exc, hx⟩
  | expand => simp [isLookup] at hs

lemma stepOp_false_null_err (s : Step) (p : List String) (hs : isLookup s = true) :
    ∃ q exc, applyOp (stepOp false s) .null p = (q, .error exc) := by
  refine stepOp_false_err s .null p (.typeError "'NoneType' object is not subscriptable") hs ?_
  cases s <;> rfl

/-! ## Facts about the navigator builder -/

lemma applyStep_value (nav : DDNav) (s : Step) : (applyStep nav s).value = nav.value := by
  cases s with
  | attr a =>
    simp only [applyStep, ddGetattr]
    split <;> rfl
  | item k => rfl
  | expand => rfl

lemma foldSteps_value (ss : List Step) (nav : DDNav) :
    (ss.foldl applyStep nav).value = nav.value := by
  induction ss generalizing nav with
  | nil => rfl
  | cons s ss ih => rw [List.foldl_cons, ih, applyStep_value]

lemma applyStep_nullSafe_true (nav : DDNav) (s : Step) (h : nav.nullSafe = true) :
    (applyStep nav s).nullSafe = true := by
  cases s with
  | attr a =>
    simp only [applyStep, ddGetattr]
    split <;> simp [h]
  | item k => simp [applyStep, ddGetitem, h]
  | expand => simp [applyStep, ddGetitem, h]

lemma foldSteps_nullSafe_true (ss : List Step) (nav : DDNav) (h : nav.nullSafe = true) :
    (ss.foldl applyStep nav).nullSafe = true := by
  induction ss generalizing nav with
  | nil => exact h
  | cons s ss ih => exact ih _ (applyStep_nullSafe_true nav s h)

lemma applyStep_nullSafe_notMark (nav : DDNav) (s : Step) (h : notMark s = true) :
    (applyStep nav s).nullSafe = nav.nullSafe := by
  cases s with
  | attr a =>
    simp only [notMark, bne_iff_ne, ne_eq] at h
    simp only [applyStep, ddGetattr]
    rw [if_neg h]
  | item k => rfl
  | expand => rfl

lemma foldSteps_nullSafe_notMark (ss : List Step) (nav : DDNav)
    (h : ∀ s ∈ ss, notMark s = true) :
    (ss.foldl applyStep nav).nullSafe = nav.nullSafe := by
  induction ss generalizing nav with
  | nil => rfl
  | cons s ss ih =>
    rw [List.foldl_cons, ih _ (fun x hx => h x (List.mem_cons_of_mem s hx)),
      applyStep_nullSafe_notMark nav s (h s (List.mem_cons_self s _))]

lemma applyStep_ops_ext (nav : DDNav) (s : Step) :
    ∃ ext, (applyStep nav s).operations = nav.operations ++ ext := by
  cases s with
  | attr a =>
    simp only [applyStep, ddGetattr]
    split
    · exact ⟨[], by simp⟩
    · exact ⟨_, rfl⟩
  | item k => exact ⟨_, rfl⟩
  | expand => exact ⟨_, rfl⟩

lemma foldSteps_ops_ext (ss : List Step) (nav : DDNav) :
    ∃ ext, (ss.foldl applyStep nav).operations = nav.operations ++ ext := by
  induction ss generalizing nav with
  | nil => exact ⟨[], by simp⟩
  | cons s ss ih =>
    rw [List.foldl_cons]
    obtain ⟨ext1, h1⟩ := applyStep_ops_ext nav s
    obtain ⟨ext2, h2⟩ := ih (applyStep nav s)
    exact ⟨ext1 ++ ext2, by rw [h2, h1, List.append_assoc]⟩

lemma applyStep_lookup (nav : DDNav) (s : Step) (hs : isLookup s = true)
    (hl : nav.expansionLevels = []) :
    applyStep nav s =
      ⟨nav.value, nav.operations ++ [stepOp nav.nullSafe s], nav.nullSafe, []⟩ := by
  cases s with
  | attr a =>
    simp only [isLookup, bne_iff_ne, ne_eq] at hs
    simp only [applyStep, ddGetattr, if_neg hs, hl, stepOp]
    rfl
  | item k =>
    simp only [applyStep, ddGetitem, hl, stepOp]
    rfl
  | expand => simp [isLookup] at hs

lemma foldSteps_lookup (ss : List Step) (nav : DDNav)
    (hs : ∀ s ∈ ss, isLookup s = true) (hl : nav.expansionLevels = []) :
    ss.foldl applyStep nav =
      ⟨nav.value, nav.operations ++ ss.map (stepOp nav.nullSafe), nav.nullSafe, []⟩ := by
  induction ss generalizing nav with
  | nil =>
    cases nav
    simp_all
  | cons s ss ih =>
    rw [List.foldl_cons, applyStep_lookup nav s (hs s (List.mem_cons_self s _)) hl,
      ih _ (fun x hx => hs x (List.mem_cons_of_mem s hx)) rfl]
    simp

/-! ## Null-safety short-circuit lemmas -/

/-- If a sequence of chain-building steps runs (with flags captured as
`false`, no null-safety) to a `None` result, then the same steps with
flags captured as `true`, followed by any nonempty list of further
operations, short-circuit to `None` under the chain-level null-safe
flag. -/
lemma c2runT (l2 : List Step) (v : Value) (p : List String) (rest : List Operation)
    (hrest : rest ≠ [])
    (h : (runOps false (l2.map (stepOp false)) v p).2 = .ok .null) :
    (runOps true (l2.map (stepOp true) ++ rest) v p).2 = .ok .null := by
  induction l2 generalizing v p with
  | nil =>
    simp only [List.map_nil, runOps] at h
    obtain rfl : v = .null := by simpa using h
    obtain ⟨r, rest', rfl⟩ := List.exists_cons_of_ne_nil hrest
    simp [runOps]
  | cons s l2' ih =>
    by_cases hv : v = .null
    · subst hv
      simp [runOps]
    · rw [List.map_cons, runOps_cons_false] at h
      rcases happ : applyOp (stepOp false s) v p with ⟨p1, r1⟩
      rw [happ] at h
      cases r1 with
      | ok r =>
        have happ2 := stepOp_ok_mono s v r p p1 happ
        rw [List.map_cons, List.cons_append, runOps_cons_true_notnull _ _ _ _ hv, happ2]
        exact ih r p1 h
      | error e => simp at h

/-- As `c2runT`, but with a prefix of steps whose flags were captured
before the null-safe marker (hence `false`): the chain-level flag alone
makes the whole run short-circuit to `None`. -/
lemma c2runF (l1 l2 : List Step) (v : Value) (p : List String) (rest : List Operation)
    (hrest : rest ≠ [])
    (h : (runOps false ((l1 ++ l2).map (stepOp false)) v p).2 = .ok .null) :
    (runOps true (l1.map (stepOp false) ++ (l2.map (stepOp true) ++ rest)) v p).2
      = .ok .null := by
  induction l1 generalizing v p with
  | nil => simpa using c2runT l2 v p rest hrest (by simpa using h)
  | cons s l1' ih =>
    by_cases hv : v = .null
    · subst hv
      simp [runOps]
    · rw [List.cons_append, List.map_cons, runOps_cons_false] at h
      rcases happ : applyOp (stepOp false s) v p with ⟨p1, r1⟩
      rw [happ] at h
      cases r1 with
      | ok r =>
        rw [List.map_cons, List.cons_append, runOps_cons_true_notnull _ _ _ _ hv, happ]
        exact ih r p1 h
      | error e => simp at h

/-- On a successful run of flag-false lookup operations, turning on the
chain-level null-safe flag changes nothing: every intermediate value is
non-`None` (a lookup on `None` with a false flag always raises). -/
lemma runOps_false_ok_true :
    ∀ (ss : List Step), (∀ s ∈ ss, isLookup s = true) →
    ∀ (v w : Value) (p q : List String),
    runOps false (ss.map (stepOp false)) v p = (q, .ok w) →
    runOps true (ss.map (stepOp false)) v p = (q, .ok w) := by
  intro ss
  induction ss with
  | nil => exact fun _ v w p q h => h
  | cons s ss' ih =>
    intro hs v w p q h
    by_cases hv : v = .null
    · subst hv
      rw [List.map_cons, runOps_cons_false] at h
      obtain ⟨q', exc, happ⟩ := stepOp_false_null_err s p (hs s (List.mem_cons_self s _))
      rw [happ] at h
      simp at h
    · rw [List.map_cons, runOps_cons_false] at h
      rcases happ : applyOp (stepOp false s) v p with ⟨p1, r1⟩
      rw [happ] at h
      cases r1 with
      | ok r =>
        rw [List.map_cons, runOps_cons_true_notnull _ _ _ _ hv, happ]
        exact ih (fun x hx => hs x (List.mem_cons_of_mem s hx)) r w p1 q h
      | error e => simp at h

/-! ## Broadcast (map) lemmas -/

lemma collect_enumFrom_ok (inner : Operation) (g : Value → Value) :
    ∀ (xs : List Value) (n : Nat) (base : List String),
    (∀ x ∈ xs, ∀ q, (applyOp inner x q).2 = .ok (g x)) →
    collect ((List.enumFrom n xs).map (fun pr =>
      applyMapElem inner 1 pr.2 (base ++ ["[" ++ toString pr.1 ++ "]"]))) =
      .ok (xs.map g) := by
  intro xs
  induction xs with
  | nil => intro n base _; rfl
  | cons x xs' ih =>
    intro n base h
    rw [List.enumFrom, List.map_cons, List.map_cons]
    rw [show applyMapElem inner 1 (n, x).2 (base ++ ["[" ++ toString (n, x).1 ++ "]"]) =
      (applyOp inner x (base ++ ["[" ++ toString n ++ "]"])).2 from applyMapElem_one ..]
    rw [h x (List.mem_cons_self x _) _]
    rw [collect, ih (n + 1) base (fun y hy => h y (List.mem_cons_of_mem x hy))]
    rfl

/-- Broadcasting an operation at expansion level 1 over a list applies
it once per element, in order, provided every per-element application
succeeds (with a path-independent result value). -/
lemma applyOp_map_one_ok (inner : Operation) (g : Value → Value) (xs : List Value)
    (p : List String)
    (h : ∀ x ∈ xs, ∀ q, (applyOp inner x q).2 = .ok (g x)) :
    applyOp (.map inner 1) (.list xs) p = (p, .ok (.list (xs.map g))) := by
  rw [applyOp_map_list, collect_enumFrom_ok inner g xs 0 p h]
  rfl

/-- A null-safe attribute lookup succeeds (with a path-independent
value) on every element on which it cannot raise. -/
lemma safeAttr_apply (a : String) (x : Value) (hx : safeAttrOk a x = true) :
    ∀ q, (applyOp (.attr a true) x q).2 = .ok (safeAttrLookup a x) := by
  intro q
  rw [applyOp_attr]
  cases x
  case null => rfl
  all_goals
    simp only [safeAttrOk] at hx
    simp only [attrApply, safeAttrLookup]
    split <;> simp_all

/-- A plain item lookup succeeds (with a path-independent value) on
every element whose subscript succeeds. -/
lemma plainItem_apply (k : Key) (x : Value) (w : Value) (hx : pyGetItem x k = .ok w) :
    ∀ q, (applyOp (.item k false) x q).2 = .ok (plainItemLookup k x) := by
  intro q
  rw [applyOp_item]
  cases x
  case null => simp [pyGetItem] at hx
  all_goals simp [itemApply, plainItemLookup, hx]

/-! ## Expansion levels produced by the public interface -/

lemma applyOp_map_other (inner : Operation) (level : Nat) (v : Value) (p : List String)
    (hv1 : v ≠ .null) (hv2 : ∀ xs, v ≠ .list xs) :
    applyOp (.map inner level) v p =
      ((applyOp inner v p).1, (applyOp inner v p).2.map (fun x => Value.list [x])) := by
  cases v <;>
    first
    | exact absurd rfl hv1
    | exact absurd rfl (hv2 _)
    | rw [applyOp] <;> simp

lemma applyOp1_map_other (inner : Operation) (level : Nat) (v : Value) (p : List String)
    (hv1 : v ≠ .null) (hv2 : ∀ xs, v ≠ .list xs) :
    applyOp1 (.map inner level) v p =
      ((applyOp1 inner v p).1, (applyOp1 inner v p).2.map (fun x => Value.list [x])) := by
  cases v <;>
    first
    | exact absurd rfl hv1
    | exact absurd rfl (hv2 _)
    | rw [applyOp1] <;> simp

lemma foldl_map_levelsOne (ls : List Nat) (base : Operation)
    (hl : ∀ l ∈ ls, l = 1) (hb : levelsOne base = true) :
    levelsOne (ls.foldl (fun acc l => .map acc l) base) = true := by
  induction ls generalizing base with
  | nil => exact hb
  | cons l ls' ih =>
    rw [List.foldl_cons]
    exact ih _ (fun x hx => hl x (List.mem_cons_of_mem l hx))
      (by simp [levelsOne, hl l (List.mem_cons_self l _), hb])

lemma wrapLevels_levelsOne (levels : List Nat) (base : Operation)
    (hl : ∀ l ∈ levels, l = 1) (hb : levelsOne base = true) :
    levelsOne (wrapLevels levels base) = true :=
  foldl_map_levelsOne _ base (fun l hlm => hl l (List.mem_reverse.mp hlm)) hb

lemma applyStep_levelsOne (nav : DDNav) (s : Step)
    (h1 : ∀ l ∈ nav.expansionLevels, l = 1)
    (h2 : ∀ op ∈ nav.operations, levelsOne op = true) :
    (∀ l ∈ (applyStep nav s).expansionLevels, l = 1) ∧
      (∀ op ∈ (applyStep nav s).operations, levelsOne op = true) := by
  cases s with
  | attr a =>
    simp only [applyStep, ddGetattr]
    split
    · exact ⟨h1, h2⟩
    · refine ⟨h1, fun op hop => ?_⟩
      rcases List.mem_append.mp hop with hmem | hmem
      · exact h2 op hmem
      · rw [List.mem_singleton.mp hmem]
        exact wrapLevels_levelsOne _ _ h1 rfl
  | item k =>
    refine ⟨h1, fun op hop => ?_⟩
    rcases List.mem_append.mp hop with hmem | hmem
    · exact h2 op hmem
    · rw [List.mem_singleton.mp hmem]
      exact wrapLevels_levelsOne _ _ h1 rfl
  | expand =>
    refine ⟨fun l hl => ?_, fun op hop => ?_⟩
    · rcases List.mem_append.mp hl with hmem | hmem
      · exact h1 l hmem
      · exact List.mem_singleton.mp hmem
    · rcases List.mem_append.mp hop with hmem | hmem
      · exact h2 op hmem
      · rw [List.mem_singleton.mp hmem]
        rfl

lemma foldSteps_levelsOne (ss : List Step) (nav : DDNav)
    (h1 : ∀ l ∈ nav.expansionLevels, l = 1)
    (h2 : ∀ op ∈ nav.operations, levelsOne op = true) :
    (∀ l ∈ (ss.foldl applyStep nav).expansionLevels, l = 1) ∧
      (∀ op ∈ (ss.foldl applyStep nav).operations, levelsOne op = true) := by
  induction ss generalizing nav with
  | nil => exact ⟨h1, h2⟩
  | cons s ss' ih =>
    rw [List.foldl_cons]
    obtain ⟨g1, g2⟩ := applyStep_levelsOne nav s h1 h2
    exact ih _ g1 g2

/-- Under the all-levels-1 invariant, the recursive-broadcast branch of
the map evaluator is dead: `applyOp` agrees with the variant `applyOp1`
that lacks it. -/
lemma applyOp_eq_applyOp1 (op : Operation) (h : levelsOne op = true) :
    ∀ (v : Value) (p : List String), applyOp op v p = applyOp1 op v p := by
  induction op with
  | attr a ns => intro v p; rw [applyOp_attr, applyOp1_attr]
  | item k ns => intro v p; rw [applyOp_item, applyOp1_item]
  | expand => intro v p; rw [applyOp_expand, applyOp1_expand]
  | map inner level ih =>
    simp only [levelsOne, Bool.and_eq_true, beq_iff_eq] at h
    obtain ⟨rfl, hin⟩ := h
    intro v p
    cases v with
    | null => rw [applyOp_map_null, applyOp1_map_null]
    | list xs =>
      rw [applyOp_map_list, applyOp1_map_list]
      simp only [applyMapElem_one, applyMapElem1_eq, ih hin]
    | bool b =>
      rw [applyOp_map_other _ _ _ _ (by simp) (by simp),
        applyOp1_map_other _ _ _ _ (by simp) (by simp), ih hin]
    | int n =>
      rw [applyOp_map_other _ _ _ _ (by simp) (by simp),
        applyOp1_map_other _ _ _ _ (by simp) (by simp), ih hin]
    | str s =>
      rw [applyOp_map_other _ _ _ _ (by simp) (by simp),
        applyOp1_map_other _ _ _ _ (by simp) (by simp), ih hin]
    | bytes bs =>
      rw [applyOp_map_other _ _ _ _ (by simp) (by simp),
        applyOp1_map_other _ _ _ _ (by simp) (by simp), ih hin]
    | dict kvs =>
      rw [applyOp_map_other _ _ _ _ (by simp) (by simp),
        applyOp1_map_other _ _ _ _ (by simp) (by simp), ih hin]

/-! ## The fuelled evaluator agrees with the source evaluator -/

lemma applyMapElemWith_eq (fuel : Nat) (inner : Operation) (level : Nat)
    (item : Value) (ip : List String)
    (hb : 2 * (opSize inner + level) < fuel)
    (hrec : ∀ op v p, 2 * opSize op < fuel → applyOpFuel fuel op v p = applyOp op v p) :
    applyMapElemWith (applyOpFuel fuel) inner level item ip =
      applyMapElem inner level item ip := by
  match level, inner with
  | 0, innr =>
    simp only [applyMapElemWith]
    rw [applyMapElem, hrec innr item ip (by omega)]
  | 1, innr =>
    simp only [applyMapElemWith]
    rw [applyMapElem, hrec innr item ip (by omega)]
  | l + 2, .attr a ns =>
    simp only [applyMapElemWith]
    rw [applyMapElem]
  | l + 2, .item k ns =>
    simp only [applyMapElemWith]
    rw [applyMapElem]
  | l + 2, .expand =>
    simp only [applyMapElemWith]
    rw [applyMapElem]
  | l + 2, .map inner2 l2 =>
    have hb2 : 2 * opSize (Operation.map inner2 (l + 1)) < fuel := by
      simp only [opSize] at hb ⊢
      omega
    have hb3 : 2 * opSize (Operation.map inner2 l2) < fuel := by
      simp only [opSize] at hb ⊢
      omega
    cases item with
    | list ys =>
      simp only [applyMapElemWith]
      rw [applyMapElem]
      have hfun : ∀ qr : Nat × Value,
          (applyOpFuel fuel (.map inner2 (l + 1)) qr.2
            (ip ++ ["[" ++ toString qr.1 ++ "]"])).2 =
          (applyOp (.map inner2 (l + 1)) qr.2
            (ip ++ ["[" ++ toString qr.1 ++ "]"])).2 := by
        intro qr
        rw [hrec _ _ _ hb2]
      simp only [hfun]
    | null =>
      show (applyOpFuel fuel (.map inner2 l2) .null ip).2 = _
      rw [hrec _ _ _ hb3, applyMapElem] <;> simp
    | bool b =>
      show (applyOpFuel fuel (.map inner2 l2) (.bool b) ip).2 = _
      rw [hrec _ _ _ hb3, applyMapElem] <;> simp
    | int n =>
      show (applyOpFuel fuel (.map inner2 l2) (.int n) ip).2 = _
      rw [hrec _ _ _ hb3, applyMapElem] <;> simp
    | str s =>
      show (applyOpFuel fuel (.map inner2 l2) (.str s) ip).2 = _
      rw [hrec _ _ _ hb3, applyMapElem] <;> simp
    | bytes bs =>
      show (applyOpFuel fuel (.map inner2 l2) (.bytes bs) ip).2 = _
      rw [hrec _ _ _ hb3, applyMapElem] <;> simp
    | dict kvs =>
      show (applyOpFuel fuel (.map inner2 l2) (.dict kvs) ip).2 = _
      rw [hrec _ _ _ hb3, applyMapElem] <;> simp

lemma applyOpFuel_eq : ∀ (fuel : Nat) (op : Operation) (v : Value) (p : List String),
    2 * opSize op < fuel → applyOpFuel fuel op v p = applyOp op v p := by
  intro fuel
  induction fuel with
  | zero => intro op v p h; exact absurd h (Nat.not_lt_zero _)
  | succ fuel ih =>
    intro op v p hop
    cases op with
    | attr a ns => rw [applyOp_attr]; rfl
    | item k ns => rw [applyOp_item]; rfl
    | expand => rw [applyOp_expand]; rfl
    | map inner level =>
      have hin : 2 * opSize inner < fuel := by
        simp only [opSize] at hop
        omega
      have hb : 2 * (opSize inner + level) < fuel := by
        simp only [opSize] at hop
        omega
      have hfun : ∀ pr : Nat × Value,
          applyMapElemWith (applyOpFuel fuel) inner level pr.2
            (p ++ ["[" ++ toString pr.1 ++ "]"]) =
          applyMapElem inner level pr.2 (p ++ ["[" ++ toString pr.1 ++ "]"]) :=
        fun pr => applyMapElemWith_eq fuel inner level pr.2 _ hb ih
      cases v with
      | null => rw [applyOp_map_null]; rfl
      | list xs =>
        rw [applyOp_map_list]
        show (p, (collect ((List.enumFrom 0 xs).map (fun pr =>
          applyMapElemWith (applyOpFuel fuel) inner level pr.2
            (p ++ ["[" ++ toString pr.1 ++ "]"])))).map Value.list) = _
        simp only [hfun]
      | bool b =>
        rw [applyOp_map_other _ _ _ _ (by simp) (by simp)]
        show ((applyOpFuel fuel inner (.bool b) p).1,
          (applyOpFuel fuel inner (.bool b) p).2.map (fun x => Value.list [x])) = _
        rw [ih inner (.bool b) p hin]
      | int n =>
        rw [applyOp_map_other _ _ _ _ (by simp) (by simp)]
        show ((applyOpFuel fuel inner (.int n) p).1,
          (applyOpFuel fuel inner (.int n) p).2.map (fun x => Value.list [x])) = _
        rw [ih inner (.int n) p hin]
      | str s =>
        rw [applyOp_map_other _ _ _ _ (by simp) (by simp)]
        show ((applyOpFuel fuel inner (.str s) p).1,
          (applyOpFuel fuel inner (.str s) p).2.map (fun x => Value.list [x])) = _
        rw [ih inner (.str s) p hin]
      | bytes bs =>
        rw [applyOp_map_other _ _ _ _ (by simp) (by simp)]
        show ((applyOpFuel fuel inner (.bytes bs) p).1,
          (applyOpFuel fuel inner (.bytes bs) p).2.map (fun x => Value.list [x])) = _
        rw [ih inner (.bytes bs) p hin]
      | dict kvs =>
        rw [applyOp_map_other _ _ _ _ (by simp) (by simp)]
        show ((applyOpFuel fuel inner (.dict kvs) p).1,
          (applyOpFuel fuel inner (.dict kvs) p).2.map (fun x => Value.list [x])) = _
        rw [ih inner (.dict kvs) p hin]

lemma runOpsFuel_eq (ns : Bool) :
    ∀ (ops : List Operation) (v : Value) (p : List String),
    runOpsFuel ns ops v p = runOps ns ops v p := by
  intro ops
  induction ops with
  | nil => intro v p; rfl
  | cons op rest ih =>
    intro v p
    have hval := applyOpFuel_eq (2 * opSize op + 1) op v p (by omega)
    cases ns <;> cases v <;>
      first
        | rfl
        | (simp only [runOpsFuel, runOps, hval]
           rcases applyOp op _ p with ⟨q, r⟩
           cases r <;> simp [ih])

lemma ddCallFuel_eq (nav : DDNav) (convert : Option (Value → Except String Value)) :
    ddCallFuel nav convert = ddCall nav convert := by
  unfold ddCallFuel ddCall
  rw [runOpsFuel_eq]

lemma ddCall_of_runOps_error (nav : DDNav) (q : List String) (e : DDExc)
    (h : runOps nav.nullSafe nav.operations nav.value ["dd"] = (q, .error e)) :
    ddCall nav none = .error e := by
  simp only [ddCall, h]

lemma ddCall_of_runOps_ok (nav : DDNav) (q : List String) (w : Value)
    (h : runOps nav.nullSafe nav.operations nav.value ["dd"] = (q, .ok w)) :
    ddCall nav none = .ok w := by
  simp only [ddCall, h]

/-! ## Claim theorems -/

/-- C7: invoking a navigator with an empty operation chain and no
converter returns the original subject value unchanged, for every input
value (including `None`), whatever the null-safe flag and expansion
levels; in particular for a freshly built root navigator. -/
theorem c7_round_trip_identity (v : Value) (ns : Bool) (levels : List Nat) :
    ddCall ⟨v, [], ns, levels⟩ none = .ok v ∧ ddCall (buildNav v []) none = .ok v :=
  ⟨rfl, rfl⟩

/-- C6: expand semantics: `None` expands to the empty sequence, a dict
to its values in insertion order, a list to itself, and text strings,
byte strings, integers and booleans all fail with the structured
"Cannot expand non-iterable" error. -/
theorem c6_expand_semantics (p : List String) (kvs : List (String × Value))
    (xs : List Value) (s : String) (bs : List Nat) (n : Int) (b : Bool) :
    applyOp .expand .null p = (p ++ ["[...]"], .ok (.list [])) ∧
    applyOp .expand (.dict kvs) p = (p ++ ["[...]"], .ok (.list (kvs.map Prod.snd))) ∧
    applyOp .expand (.list xs) p = (p ++ ["[...]"], .ok (.list xs)) ∧
    applyOp .expand (.str s) p =
      (p ++ ["[...]"], .error ⟨"Cannot expand non-iterable", p ++ ["[...]"], .str s⟩) ∧
    applyOp .expand (.bytes bs) p =
      (p ++ ["[...]"], .error ⟨"Cannot expand non-iterable", p ++ ["[...]"], .bytes bs⟩) ∧
    applyOp .expand (.int n) p =
      (p ++ ["[...]"], .error ⟨"Cannot expand non-iterable", p ++ ["[...]"], .int n⟩) ∧
    applyOp .expand (.bool b) p =
      (p ++ ["[...]"], .error ⟨"Cannot expand non-iterable", p ++ ["[...]"], .bool b⟩) := by
  refine ⟨?_, ?_, ?_, ?_, ?_, ?_, ?_⟩ <;> rw [applyOp_expand] <;> rfl

/-- C8: invoking `users[2].name` on data whose `users` list has exactly
one element raises a structured error whose root-first path contains the
segment `users` and the index marker `[2]`, whose message names the
failed attribute (`'2'`), and whose value field is the value present at
the failure point (the one-element list). -/
theorem c8_error_path_reporting :
    ddCall (buildNav usersData [.attr "users", .item (.int 2), .attr "name"]) none =
      .error ⟨"Failed to get attribute '2': list index out of range",
        ["dd", "users", "[2]"], .list [.dict [("name", .str "Alice")]]⟩ ∧
    "users" ∈ (["dd", "users", "[2]"] : List String) ∧
    "[2]" ∈ (["dd", "users", "[2]"] : List String) := by
  refine ⟨?_, by simp, by simp⟩
  rw [← ddCallFuel_eq]
  rfl

/-- C5: the null-safe marker `_` returns a navigator with the same
subject value, operations and expansion levels and only the flag set to
true; and once the flag is set, every navigator derived by further
chaining (attribute, item or expand steps) still has it set. -/
theorem c5_null_safe_sticky (nav : DDNav) (ss : List Step) :
    ddGetattr nav "_" = ⟨nav.value, nav.operations, true, nav.expansionLevels⟩ ∧
    (nav.nullSafe = true → (ss.foldl applyStep nav).nullSafe = true) :=
  ⟨by simp [ddGetattr], foldSteps_nullSafe_true ss nav⟩

/-- Witness for C5 at a concrete null-safe navigator and a concrete
derivation chain. -/
theorem c5_null_safe_sticky_witness :
    ddGetattr ⟨.null, [], true, []⟩ "_" = ⟨.null, [], true, []⟩ ∧
    (([.attr "a", .expand, .item (.int 0)] : List Step).foldl applyStep
      ⟨.null, [], true, []⟩).nullSafe = true :=
  ⟨(c5_null_safe_sticky ⟨.null, [], true, []⟩ []).1,
   (c5_null_safe_sticky ⟨.null, [], true, []⟩ [.attr "a", .expand, .item (.int 0)]).2 rfl⟩

/-- C4: under null-safety, only a `None` value or a not-found lookup
(`KeyError`, `IndexError`) is suppressed to `None`; a genuine lookup
fault (a `TypeError`, e.g. subscripting a non-indexable non-`None`
value) raises the structured error even with null-safety enabled, both
for attribute and item operations, and the error escapes the
invocation. -/
theorem c4_null_safe_suppression_scope (a : String) (k : Key) (v : Value)
    (p : List String) (m : String) :
    applyOp (.attr a true) .null p = (p ++ [a], .ok .null) ∧
    (pyGetItem v (.str a) = .error (.keyError m) →
      applyOp (.attr a true) v p = (p ++ [a], .ok .null)) ∧
    (pyGetItem v (.str a) = .error (.indexError m) →
      applyOp (.attr a true) v p = (p ++ [a], .ok .null)) ∧
    (v ≠ .null → pyGetItem v (.str a) = .error (.typeError m) →
      ddCall ⟨v, [.attr a true], true, []⟩ none =
        .error ⟨"Failed to get attribute '" ++ a ++ "': " ++ m, ["dd", a], v⟩) ∧
    (v ≠ .null → pyGetItem v k = .error (.typeError m) →
      ddCall ⟨v, [.item k true], true, []⟩ none =
        .error ⟨"Failed to get item with key '" ++ strKey k ++ "': " ++ m,
          ["dd", "[" ++ reprKey k ++ "]"], v⟩) := by
  refine ⟨by rw [applyOp_attr]; rfl, ?_, ?_, ?_, ?_⟩
  · intro h
    cases v <;> (rw [applyOp_attr]; simp [attrApply, h])
  · intro h
    cases v <;> (rw [applyOp_attr]; simp [attrApply, h])
  · intro hv h
    cases v <;> first
      | exact absurd rfl hv
      | simp [ddCall, runOps, applyOp_attr, attrApply, h, Except.map]
  · intro hv h
    cases v <;> first
      | exact absurd rfl hv
      | simp [ddCall, runOps, applyOp_item, itemApply, h, Except.map]

/-- Witness for C4: a null-safe attribute lookup on the integer `3`
(not indexable at all) raises even though null-safety is on. -/
theorem c4_null_safe_suppression_scope_witness :
    ddCall ⟨.int 3, [.attr "x" true], true, []⟩ none =
      .error ⟨"Failed to get attribute '" ++ "x" ++ "': " ++
        "'int' object is not subscriptable", ["dd", "x"], .int 3⟩ :=
  (c4_null_safe_suppression_scope "x" (.int 0) (.int 3) ["dd"]
    "'int' object is not subscriptable").2.2.2.1
    (fun h => Value.noConfusion h) rfl

/-- C9: every operation in the chain of a navigator built through the
public interface has expansion level 1 at every map-nesting depth
(because `__getitem__` only ever pushes level 1), and consequently on
such operations the evaluator agrees everywhere with the variant whose
`expansion_level > 1` recursive-broadcast branch is deleted: that branch
is dead code for public-interface navigators. -/
theorem c9_public_interface_level_one (v : Value) (steps : List Step) (op : Operation)
    (hop : op ∈ (buildNav v steps).operations) :
    levelsOne op = true ∧
      ∀ (w : Value) (p : List String), applyOp op w p = applyOp1 op w p := by
  have hinv := foldSteps_levelsOne steps ⟨v, [], false, []⟩
    (fun l hl => absurd hl (List.not_mem_nil l))
    (fun o ho => absurd ho (List.not_mem_nil o))
  have hlev := hinv.2 op hop
  exact ⟨hlev, applyOp_eq_applyOp1 op hlev⟩

/-- Witness for C9 at the chain `dd(None)[...]` `.a`, whose second
operation is the level-1 map wrapping the attribute lookup. -/
theorem c9_public_interface_level_one_witness :
    levelsOne (.map (.attr "a" false) 1) = true ∧
      applyOp (.map (.attr "a" false) 1) (.list [.null]) ["dd"] =
        applyOp1 (.map (.attr "a" false) 1) (.list [.null]) ["dd"] :=
  ⟨(c9_public_interface_level_one .null [.expand, .attr "a"]
      (.map (.attr "a" false) 1) (by decide)).1,
   (c9_public_interface_level_one .null [.expand, .attr "a"]
      (.map (.attr "a" false) 1) (by decide)).2 (.list [.null]) ["dd"]⟩

/-- C1 counterexample: expanding `[{"name": "A"}, None]` and then
looking up `name` WITHOUT null-safety does not yield `["A", None]`: the
per-element failure on the `None` element propagates (this source has no
per-element catch in `_DDMapOperation.apply`) and the invocation raises
the structured error. -/
theorem c1_per_element_resilience_counterexample :
    ddCall (buildNav resilienceData [.expand, .attr "name"]) none =
      .error ⟨"Failed to get attribute 'name': 'NoneType' object is not subscriptable",
        ["dd", "[...]", "[1]", "name"], .null⟩ := by
  rw [← ddCallFuel_eq]
  rfl

/-- C1 (amended): per-element resilience holds under null-safety: when
every element of the expanded list either is `None`, or looks up
successfully, or fails with a not-found error, the broadcast of a
null-safe attribute lookup returns one slot per element — failing
elements yield `None` in their slot while sibling elements produce their
values — and in particular `dd([{"name":"A"}, None])._[...].name`
yields `["A", None]` with no exception.  Without null-safety the same
chain raises (see the counterexample). -/
theorem c1_per_element_resilience (a : String) (xs : List Value) (p : List String)
    (h : ∀ x ∈ xs, safeAttrOk a x = true) :
    applyOp (.map (.attr a true) 1) (.list xs) p =
      (p, .ok (.list (xs.map (safeAttrLookup a)))) ∧
    ddCall (buildNav resilienceData [.attr "_", .expand, .attr "name"]) none =
      .ok (.list [.str "A", .null]) := by
  constructor
  · exact applyOp_map_one_ok (.attr a true) (safeAttrLookup a) xs p
      (fun x hx => safeAttr_apply a x (h x hx))
  · rw [← ddCallFuel_eq]
    rfl

/-- Witness for C1 at the claim's own example list. -/
theorem c1_per_element_resilience_witness :
    applyOp (.map (.attr "name" true) 1)
      (.list [.dict [("name", .str "A")], .null]) ["dd", "[...]"] =
      (["dd", "[...]"], .ok (.list [.str "A", .null])) :=
  (c1_per_element_resilience "name" [.dict [("name", .str "A")], .null]
    ["dd", "[...]"] (by decide)).1

/-- C3: broadcast preserves positional shape.  Expanding a list and then
applying an item lookup per element yields one result per element in
corresponding positions (outer length preserved), provided each
per-element lookup succeeds; and the chained triple expansion
`departments[...].teams[...].members[...].name` over the nested
department/team/member structure yields the triply nested name lists
matching the department, team and member counts exactly. -/
theorem c3_broadcast_shape (rows : List Value) (key : Key)
    (h : ∀ r ∈ rows, (pyGetItem r key).isOk = true) :
    ddCall (buildNav (.list rows) [.expand, .item key]) none =
      .ok (.list (rows.map (plainItemLookup key))) ∧
    (rows.map (plainItemLookup key)).length = rows.length ∧
    ddCall (buildNav deptData deptSteps) none = .ok deptExpected := by
  refine ⟨?_, by simp, ?_⟩
  · have hmap := applyOp_map_one_ok (.item key false) (plainItemLookup key) rows
      ["dd", "[...]"] (fun x hx => by
        rcases hpy : pyGetItem x key with e | w
        · have hok := h x hx
          rw [hpy] at hok
          simp [Except.isOk, Except.toBool] at hok
        · exact plainItem_apply key x w hpy)
    simp [ddCall, buildNav, applyStep, ddGetattr, ddGetitem, wrapLevels,
      runOps_cons_false, applyOp_expand, expandApply, hmap, runOps]
  · rw [← ddCallFuel_eq]
    rfl

/-- Witness for C3 at the matrix `[[1,2,3],[4,5,6]]` indexed at 0 after
expansion, which yields `[1, 4]`. -/
theorem c3_broadcast_shape_witness :
    ddCall (buildNav (.list matrixRows) [.expand, .item (.int 0)]) none =
      .ok (.list (matrixRows.map (plainItemLookup (.int 0)))) ∧
    ddCall (buildNav (.list matrixRows) [.expand, .item (.int 0)]) none =
      .ok (.list [.int 1, .int 4]) := by
  have hmain := c3_broadcast_shape matrixRows (.int 0) (by decide)
  exact ⟨hmain.1, by rw [hmain.1]; rfl⟩

/-- C2 counterexample: in the chain `dd({"users": None}).users[...]`,
the intermediate value after `users` is `None`, yet invoking WITHOUT
null-safety does not raise: the expand operation turns `None` into the
empty list and the invocation returns `[]`.  So "for any chain with a
null intermediate, invoking without null-safety raises" is false as
stated. -/
theorem c2_null_safety_short_circuit_counterexample :
    (runOps false ((buildNav nullUsers [.attr "users", .expand]).operations.take 1)
      nullUsers ["dd"]).2 = .ok .null ∧
    ddCall (buildNav nullUsers [.attr "users", .expand]) none = .ok (.list []) := by
  constructor
  · rw [← runOpsFuel_eq]
    rfl
  · rw [← ddCallFuel_eq]
    rfl

/-- C2 (amended): for a chain of plain lookup steps reaching a `None`
intermediate value whose NEXT operation is again an attribute or item
lookup (not an expand, which would turn `None` into `[]`), invoking
without null-safety raises a structured error, while the same chain with
the null-safe marker inserted at or before that point returns `None` and
never raises (whatever further steps follow). -/
theorem c2_null_safety_short_circuit (pre mid post : List Step) (s : Step) (v : Value)
    (hpre : ∀ x ∈ pre, isLookup x = true)
    (hmid : ∀ x ∈ mid, isLookup x = true)
    (hs : isLookup s = true)
    (hpost : ∀ x ∈ post, notMark x = true)
    (hnull : (runOps false ((pre ++ mid).map (stepOp false)) v ["dd"]).2 = .ok .null) :
    (∃ e, ddCall (buildNav v (pre ++ mid ++ s :: post)) none = .error e) ∧
    ddCall (buildNav v (pre ++ Step.attr "_" :: (mid ++ s :: post))) none = .ok .null := by
  rcases hrun : runOps false ((pre ++ mid).map (stepOp false)) v ["dd"] with ⟨q, r⟩
  have hr : r = .ok .null := by rw [hrun] at hnull; exact hnull
  subst hr
  constructor
  · -- without null-safety: the lookup `s` hits the `None` intermediate
    have hlk : ∀ x ∈ pre ++ mid ++ [s], isLookup x = true := by
      intro x hx
      rcases List.mem_append.mp hx with hx1 | hx2
      · rcases List.mem_append.mp hx1 with h1 | h2
        · exact hpre x h1
        · exact hmid x h2
      · rw [List.mem_singleton.mp hx2]
        exact hs
    have hb1 : (pre ++ mid ++ [s]).foldl applyStep (⟨v, [], false, []⟩ : DDNav) =
        ⟨v, (pre ++ mid).map (stepOp false) ++ [stepOp false s], false, []⟩ := by
      rw [foldSteps_lookup _ _ hlk rfl]
      simp
    have hbuild : buildNav v (pre ++ mid ++ s :: post) =
        post.foldl applyStep
          ⟨v, (pre ++ mid).map (stepOp false) ++ [stepOp false s], false, []⟩ := by
      unfold buildNav
      rw [show pre ++ mid ++ s :: post = (pre ++ mid ++ [s]) ++ post by simp,
        List.foldl_append, hb1]
    obtain ⟨ext, hext⟩ := foldSteps_ops_ext post
      ⟨v, (pre ++ mid).map (stepOp false) ++ [stepOp false s], false, []⟩
    obtain ⟨q1, exc, happ⟩ := stepOp_false_null_err s q hs
    refine ⟨exc, ?_⟩
    rw [hbuild]
    refine ddCall_of_runOps_error _ q1 exc ?_
    rw [foldSteps_nullSafe_notMark post _ hpost, foldSteps_value, hext]
    show runOps false
      (((pre ++ mid).map (stepOp false) ++ [stepOp false s]) ++ ext) v ["dd"] = _
    rw [List.append_assoc,
      runOps_append_ok false _ ([stepOp false s] ++ ext) v .null ["dd"] q hrun,
      List.singleton_append, runOps_cons_false, happ]
  · -- with the null-safe marker inserted after `pre`
    have hmidlk : ∀ x ∈ mid ++ [s], isLookup x = true := by
      intro x hx
      rcases List.mem_append.mp hx with h1 | h2
      · exact hmid x h1
      · rw [List.mem_singleton.mp h2]
        exact hs
    have hbpre : (pre ++ [Step.attr "_"]).foldl applyStep (⟨v, [], false, []⟩ : DDNav) =
        ⟨v, pre.map (stepOp false), true, []⟩ := by
      rw [List.foldl_append, foldSteps_lookup _ _ hpre rfl]
      simp [applyStep, ddGetattr]
    have hb3 : (mid ++ [s]).foldl applyStep
        (⟨v, pre.map (stepOp false), true, []⟩ : DDNav) =
        ⟨v, pre.map (stepOp false) ++ (mid.map (stepOp true) ++ [stepOp true s]),
          true, []⟩ := by
      rw [foldSteps_lookup _ _ hmidlk rfl]
      simp
    have hbuild2 : buildNav v (pre ++ Step.attr "_" :: (mid ++ s :: post)) =
        post.foldl applyStep
          ⟨v, pre.map (stepOp false) ++ (mid.map (stepOp true) ++ [stepOp true s]),
            true, []⟩ := by
      unfold buildNav
      rw [show pre ++ Step.attr "_" :: (mid ++ s :: post) =
        ((pre ++ [Step.attr "_"]) ++ (mid ++ [s])) ++ post by simp,
        List.foldl_append, List.foldl_append, hbpre, hb3]
    obtain ⟨ext2, hext2⟩ := foldSteps_ops_ext post
      ⟨v, pre.map (stepOp false) ++ (mid.map (stepOp true) ++ [stepOp true s]), true, []⟩
    have hrun2 : (runOps true
        ((pre.map (stepOp false) ++ (mid.map (stepOp true) ++ [stepOp true s])) ++ ext2)
        v ["dd"]).2 = .ok .null := by
      rw [show (pre.map (stepOp false) ++ (mid.map (stepOp true) ++ [stepOp true s])) ++ ext2
        = pre.map (stepOp false) ++ (mid.map (stepOp true) ++ (stepOp true s :: ext2))
        by simp]
      exact c2runF pre mid v ["dd"] (stepOp true s :: ext2) (by simp) hnull
    rcases hfull : runOps true
        ((pre.map (stepOp false) ++ (mid.map (stepOp true) ++ [stepOp true s])) ++ ext2)
        v ["dd"] with ⟨q2, r2⟩
    have hr2 : r2 = .ok .null := by rw [hfull] at hrun2; exact hrun2
    subst hr2
    rw [hbuild2]
    refine ddCall_of_runOps_ok _ q2 .null ?_
    rw [foldSteps_nullSafe_true post _ rfl, foldSteps_value, hext2]
    exact hfull

/-- Witness for C2 on `{"users": None}` with the chain `users.name`:
the prefix `users` yields `None`, `dd(data).users.name()` raises, and
`dd(data)._.users.name()` returns `None`. -/
theorem c2_null_safety_short_circuit_witness :
    (∃ e, ddCall (buildNav nullUsers [.attr "users", .attr "name"]) none = .error e) ∧
    ddCall (buildNav nullUsers [.attr "_", .attr "users", .attr "name"]) none
      = .ok .null :=
  c2_null_safety_short_circuit [] [.attr "users"] [] (.attr "name") nullUsers
    (by decide) (by decide) (by decide) (by decide)
    (by rw [← runOpsFuel_eq]; rfl)

/-- C10: the null-safe flag is captured into each attribute/item
operation at the moment it is appended, not at invoke time.  First
conjunct: for a lookup chain where the `_` marker is applied only after
the first operations, a not-found failure (missing key / out-of-range
index, on a non-`None` value) in one of those earlier operations still
raises on invoke, because those operations carry `null_safe = false`.
Second conjunct: the chain-level short-circuit in `__call__` consults
the navigator's final flag, so a `None` intermediate value arising
before the marker position still short-circuits the whole invocation to
`None`. -/
theorem c10_flag_captured_at_append (pre mid2 post : List Step) (s : Step)
    (v w : Value) (q : List String) (err : PyErr) :
    ((∀ x ∈ pre, isLookup x = true) → isLookup s = true →
      (∀ x ∈ mid2, isLookup x = true) →
      runOps false (pre.map (stepOp false)) v ["dd"] = (q, .ok w) →
      w ≠ .null → pyGetItem w (stepKey s) = .error err → isNotFound err = true →
      ∃ e, ddCall (buildNav v (pre ++ s :: (mid2 ++ Step.attr "_" :: post))) none
        = .error e) ∧
    ((∀ x ∈ pre, isLookup x = true) → (∀ x ∈ mid2, isLookup x = true) → mid2 ≠ [] →
      (runOps false (pre.map (stepOp false)) v ["dd"]).2 = .ok .null →
      ddCall (buildNav v (pre ++ (mid2 ++ Step.attr "_" :: post))) none
        = .ok .null) := by
  constructor
  · intro hpre hsl hmid2 hrun hw hfail hnf
    have hlk : ∀ x ∈ pre ++ s :: mid2, isLookup x = true := by
      intro x hx
      rcases List.mem_append.mp hx with h1 | h2
      · exact hpre x h1
      · rcases List.mem_cons.mp h2 with h3 | h4
        · rw [h3]; exact hsl
        · exact hmid2 x h4
    have hb1 : ((pre ++ s :: mid2) ++ [Step.attr "_"]).foldl applyStep
        (⟨v, [], false, []⟩ : DDNav) =
        ⟨v, pre.map (stepOp false) ++
          (stepOp false s :: mid2.map (stepOp false)), true, []⟩ := by
      rw [List.foldl_append, foldSteps_lookup _ _ hlk rfl]
      simp [applyStep, ddGetattr]
    have hbuild : buildNav v (pre ++ s :: (mid2 ++ Step.attr "_" :: post)) =
        post.foldl applyStep
          ⟨v, pre.map (stepOp false) ++
            (stepOp false s :: mid2.map (stepOp false)), true, []⟩ := by
      unfold buildNav
      rw [show pre ++ s :: (mid2 ++ Step.attr "_" :: post) =
        ((pre ++ s :: mid2) ++ [Step.attr "_"]) ++ post by simp,
        List.foldl_append, hb1]
    obtain ⟨ext, hext⟩ := foldSteps_ops_ext post
      ⟨v, pre.map (stepOp false) ++ (stepOp false s :: mid2.map (stepOp false)), true, []⟩
    have hrunT := runOps_false_ok_true pre hpre v w ["dd"] q hrun
    obtain ⟨q1, exc, happ⟩ := stepOp_false_err s w q err hsl hfail
    refine ⟨exc, ?_⟩
    rw [hbuild]
    refine ddCall_of_runOps_error _ q1 exc ?_
    rw [foldSteps_nullSafe_true post _ rfl, foldSteps_value, hext]
    show runOps true
      ((pre.map (stepOp false) ++ (stepOp false s :: mid2.map (stepOp false))) ++ ext)
      v ["dd"] = _
    rw [List.append_assoc,
      runOps_append_ok true _ _ v w ["dd"] q hrunT,
      List.cons_append, runOps_cons_true_notnull _ _ _ _ hw, happ]
  · intro hpre hmid2 hne hnull
    have hlk : ∀ x ∈ pre ++ mid2, isLookup x = true := by
      intro x hx
      rcases List.mem_append.mp hx with h1 | h2
      · exact hpre x h1
      · exact hmid2 x h2
    have hb1 : ((pre ++ mid2) ++ [Step.attr "_"]).foldl applyStep
        (⟨v, [], false, []⟩ : DDNav) =
        ⟨v, pre.map (stepOp false) ++ mid2.map (stepOp false), true, []⟩ := by
      rw [List.foldl_append, foldSteps_lookup _ _ hlk rfl]
      simp [applyStep, ddGetattr]
    have hbuild : buildNav v (pre ++ (mid2 ++ Step.attr "_" :: post)) =
        post.foldl applyStep
          ⟨v, pre.map (stepOp false) ++ mid2.map (stepOp false), true, []⟩ := by
      unfold buildNav
      rw [show pre ++ (mid2 ++ Step.attr "_" :: post) =
        ((pre ++ mid2) ++ [Step.attr "_"]) ++ post by simp,
        List.foldl_append, hb1]
    obtain ⟨ext2, hext2⟩ := foldSteps_ops_ext post
      ⟨v, pre.map (stepOp false) ++ mid2.map (stepOp false), true, []⟩
    have hrun2 : (runOps true
        ((pre.map (stepOp false) ++ mid2.map (stepOp false)) ++ ext2) v ["dd"]).2
        = .ok .null := by
      rw [show (pre.map (stepOp false) ++ mid2.map (stepOp false)) ++ ext2
        = pre.map (stepOp false) ++ (([] : List Step).map (stepOp true) ++
          (mid2.map (stepOp false) ++ ext2)) by simp]
      refine c2runF pre [] v ["dd"] (mid2.map (stepOp false) ++ ext2) ?_ (by simpa using hnull)
      simp [hne]
    rcases hfull : runOps true
        ((pre.map (stepOp false) ++ mid2.map (stepOp false)) ++ ext2) v ["dd"]
      with ⟨q2, r2⟩
    have hr2 : r2 = .ok .null := by rw [hfull] at hrun2; exact hrun2
    subst hr2
    rw [hbuild]
    refine ddCall_of_runOps_ok _ q2 .null ?_
    rw [foldSteps_nullSafe_true post _ rfl, foldSteps_value, hext2]
    exact hfull

/-- Witness for C10: on `{"u": {}}` the chain `u.x._.y` raises (the
missing key `x` was appended before the marker), and on `{"u": None}`
the chain `u.z._` returns `None` (the chain-level short-circuit uses the
final flag even for the first operations). -/
theorem c10_flag_captured_at_append_witness :
    (∃ e, ddCall (buildNav (.dict [("u", .dict [])])
      [.attr "u", .attr "x", .attr "_", .attr "y"]) none = .error e) ∧
    ddCall (buildNav (.dict [("u", .null)])
      [.attr "u", .attr "z", .attr "_"]) none = .ok .null :=
  ⟨(c10_flag_captured_at_append [.attr "u"] [] [.attr "y"] (.attr "x")
      (.dict [("u", .dict [])]) (.dict []) ["dd", "u"] (.keyError "'x'")).1
      (by decide) (by decide) (by decide)
      (by rw [← runOpsFuel_eq]; rfl)
      (fun h => Value.noConfusion h) rfl rfl,
   (c10_flag_captured_at_append [.attr "u"] [.attr "z"] [] (.attr "x")
      (.dict [("u", .null)]) .null [] (.keyError "")).2
      (by decide) (by decide) (by decide)
      (by rw [← runOpsFuel_eq]; rfl)⟩

end DataDot
